import Mathlib

/-!
Verification of the `StandOutSearcher` scraper
(`src/jobspy/scrapers/standoutsearch/__init__.py`).

Shallow embedding conventions:

* An HTML element (`Elem`) carries its tag name, the exact string value of
  its `class` attribute (BeautifulSoup's `class_="..."` with a multi-class
  string matches the attribute string exactly), its text content, and its
  attribute list.  `get_text(strip=True)` is modelled as whitespace
  stripping (`stripText`).
* A parsed detail page is the ordered list of the sibling-level elements
  the parser addresses (`soup.find(...)` scans it in document order;
  `find_next_sibling(tag)` scans the elements after the found one for the
  next element with that tag).
* A job container (one `div.chakra-box` hit of `find_all`) is likewise the
  ordered list of its descendant elements; `container.find(tag, class_=c)`
  returns the first match.
* The network is an explicit environment `Env`: `pages p` is the outcome
  of `session.get(f"https://www.standoutsearch.com/jobs?page={p}")`, where `none`
  models the fetch raising an exception, and `some r` carries the HTTP
  status code together with the job containers that
  `find_all('div', class_='chakra-box')` yields on the body.  `detail u`
  is the markup served at detail URL `u`.
* Python exceptions are modelled with `Except PyErr`: `AttributeError`
  from calling a method on `None`, `TypeError` from subscripting `None`,
  `KeyError` from a missing attribute key, and a raised fetch exception.
* `time.sleep` has no observable effect in the model and is omitted.
* Every fetch is recorded in a `Trace` (listing page numbers and detail
  URLs, in request order) so that resource claims can be stated.
-/

/-- An HTML element: tag name, exact `class` attribute string, text
content, and further attributes. -/
structure Elem where
  tag : String
  classes : String
  text : String
  attrs : List (String × String)
deriving DecidableEq

/-- `StandOutSearcher.base_url`. -/
def base_url : String := "https://www.standoutsearch.com"

/-- `container.find(tag, class_=classes)`: first element matching the tag
and the exact class string, `none` when absent. -/
def findTagClass (soup : List Elem) (tag classes : String) : Option Elem :=
  soup.find? (fun e => e.tag == tag && e.classes == classes)

/-- `soup.find('p', class_='chakra-text css-i3b6lo', text=label)` on a
detail page, returning the index of the hit so its following siblings can
be searched. -/
def findLabelIdx (soup : List Elem) (label : String) : Option Nat :=
  soup.findIdx? (fun e => e.tag == "p" && e.classes == "chakra-text css-i3b6lo" && e.text == label)

/-- `elem.find_next_sibling(tag)`: the first element after position `i`
with the given tag. -/
def findNextSiblingTag (soup : List Elem) (i : Nat) (tag : String) : Option Elem :=
  (soup.drop (i + 1)).find? (fun e => e.tag == tag)

/-- Removal of leading and trailing whitespace (the `strip=True` of
`get_text`), written over the character list so that it is
kernel-computable. -/
def stripText (s : String) : String :=
  ⟨List.reverse (List.dropWhile Char.isWhitespace
    (List.reverse (List.dropWhile Char.isWhitespace s.data)))⟩

/-- `elem.get_text(strip=True)`. -/
def getTextStrip (e : Elem) : String :=
  stripText e.text

/-- `elem[key]` / `elem.get(key)`: attribute lookup. -/
def lookupAttr (e : Elem) (key : String) : Option String :=
  (e.attrs.find? (fun kv => kv.1 == key)).map (fun kv => kv.2)

/-- The Python exceptions the scraper can raise. -/
inductive PyErr
  /-- `AttributeError`: method call on `None` (a failed `find`). -/
  | attrError
  /-- `TypeError`: subscripting `None` (a failed `find` indexed with `['href']`). -/
  | typeError
  /-- `KeyError`: the found element has no such attribute. -/
  | keyError
  /-- An exception raised by the HTTP fetch itself. -/
  | fetchError
deriving DecidableEq

/-- The shared `JobPost` record (from the aggregator's `jobs` module, not
under `src/`): only the fields this scraper populates, all optional with
`none` as the unset value. -/
structure JobPost where
  title : Option String
  company_name : Option String
  deadline : Option String
  job_url : Option String
  location : Option String
  address : Option String
  mode : Option String
  description : Option String
deriving DecidableEq

/-- One labelled field of `_parse_job_details`:
`soup.find('p', class_='chakra-text css-i3b6lo', text=label)` followed by
`.find_next_sibling(sibTag).get_text(strip=True)` when the label is found,
`None` otherwise.  A found label whose sibling search fails raises
`AttributeError` (`None.get_text`). -/
def detailField (soup : List Elem) (label sibTag : String) : Except PyErr (Option String) :=
  match findLabelIdx soup label with
  | none => Except.ok none
  | some i =>
    match findNextSiblingTag soup i sibTag with
    | none => Except.error PyErr.attrError
    | some e => Except.ok (some (getTextStrip e))

/-- `StandOutSearcher._parse_job_details`. -/
def parse_job_details (soup : List Elem) : Except PyErr JobPost := do
  let location ← detailField soup "Location:" "span"
  let address ← detailField soup "Address:" "p"
  let mode ← detailField soup "Mode:" "span"
  let description ← detailField soup "Description:" "p"
  Except.ok
    { title := none, company_name := none, deadline := none, job_url := none,
      location := location, address := address, mode := mode, description := description }

/-- Modelled from the spec: an absolute URL is one carrying its own
scheme, i.e. one starting with `http`; anything else is a site-relative
URL. -/
def isAbsoluteUrl (url : String) : Bool :=
  url.data.take 4 == "http".data

/-- Modelled from the spec: `Scraper.fetch_html` is defined in the
scraper base class, which is not under `src/`; the spec requires the
detail URL "as extracted from the listing page, which may be relative or
absolute — implementer must resolve relative URLs against the base
host".  An absolute URL is used as-is, a site-relative one is resolved
against the base host. -/
def resolveUrl (base url : String) : String :=
  if isAbsoluteUrl url then url else base ++ url

/-- The outcome of a successful `session.get` on a listing page: the HTTP
status code and the job containers that
`find_all('div', class_='chakra-box')` yields on the body. -/
structure ListingResponse where
  status_code : Nat
  containers : List (List Elem)
deriving DecidableEq

/-- The external world: listing pages by page number (`none` = the fetch
raises) and detail pages by URL. -/
structure Env where
  pages : Nat → Option ListingResponse
  detail : String → List Elem

/-- `StandOutSearcher._process_job`.  Returns the job post (or the raised
exception) together with the list of detail URLs fetched.  The source
evaluates, in order: the title `find(...).get_text(...)`, the company
`find(...).get_text(...)`, the optional deadline, the detail link
`find(...)['href']`, then `fetch_html(job_url)` and
`_parse_job_details`. -/
def process_job (env : Env) (container : List Elem) : Except PyErr JobPost × List String :=
  match findTagClass container "p" "chakra-text css-134zrag" with
  | none => (Except.error PyErr.attrError, [])
  | some titleElem =>
    match findTagClass container "p" "chakra-text css-14pw5qv" with
    | none => (Except.error PyErr.attrError, [])
    | some companyElem =>
      let deadline := (findTagClass container "span" "css-111tzkx").map getTextStrip
      match findTagClass container "a" "chakra-link chakra-button css-19vrdtv" with
      | none => (Except.error PyErr.typeError, [])
      | some linkElem =>
        match lookupAttr linkElem "href" with
        | none => (Except.error PyErr.keyError, [])
        | some job_url =>
          let target := resolveUrl base_url job_url
          match parse_job_details (env.detail target) with
          | Except.error e => (Except.error e, [target])
          | Except.ok jd =>
            (Except.ok
              { title := some (getTextStrip titleElem),
                company_name := some (getTextStrip companyElem),
                deadline := deadline,
                job_url := some job_url,
                location := jd.location, address := jd.address,
                mode := jd.mode, description := jd.description }, [target])

/-- The container loop of `_find_jobs_in_page`: each container is
processed in order and appended (`_process_job` never returns `None`, so
the `if job_post:` guard always passes); an exception from a container
propagates, discarding the page. -/
def processContainers (env : Env) : List (List Elem) → Except PyErr (List JobPost) × List String
  | [] => (Except.ok [], [])
  | c :: cs =>
    match process_job env c with
    | (Except.error e, urls) => (Except.error e, urls)
    | (Except.ok j, urls) =>
      match processContainers env cs with
      | (r, urls2) => (r.map (fun js => j :: js), urls ++ urls2)

/-- `StandOutSearcher._find_jobs_in_page`: fetch the listing page (a
raised fetch exception propagates), return `[]` on a status other than
200, otherwise process the containers. -/
def find_jobs_in_page (env : Env) (page : Nat) : Except PyErr (List JobPost) × List String :=
  match env.pages page with
  | none => (Except.error PyErr.fetchError, [])
  | some res =>
    if res.status_code ≠ 200 then (Except.ok [], [])
    else processContainers env res.containers

/-- A record of the HTTP requests a run makes: listing page numbers and
detail URLs, in request order. -/
structure Trace where
  listing : List Nat
  detail : List String
deriving DecidableEq

/-- The `while True` loop of `StandOutSearcher.scrape`: break when the
collected count reaches `results_wanted` (checked before fetching),
otherwise fetch the next page; a non-empty page extends the list and the
loop continues, an empty page breaks, an exception propagates.
Terminates because every continuing iteration grows `job_list`. -/
def scrapeLoop (env : Env) (results_wanted : Nat) (job_list : List JobPost) (page : Nat) :
    Except PyErr (List JobPost) × Trace :=
  if _h : results_wanted ≤ job_list.length then
    (Except.ok job_list, ⟨[], []⟩)
  else
    match find_jobs_in_page env page with
    | (Except.error e, urls) => (Except.error e, ⟨[page], urls⟩)
    | (Except.ok [], urls) => (Except.ok job_list, ⟨[page], urls⟩)
    | (Except.ok (j :: js), urls) =>
      match scrapeLoop env results_wanted (job_list ++ j :: js) (page + 1) with
      | (r, t) => (r, ⟨page :: t.listing, urls ++ t.detail⟩)
termination_by results_wanted - job_list.length
decreasing_by simp [List.length_append]; omega

/-- `StandOutSearcher.scrape`: run the loop from an empty list and page 1,
then truncate to `results_wanted` (`job_list[: scraper_input.results_wanted]`). -/
def scrape (env : Env) (results_wanted : Nat) : Except PyErr (List JobPost) × Trace :=
  match scrapeLoop env results_wanted [] 1 with
  | (r, t) => (r.map (fun l => l.take results_wanted), t)

/-- The jobs a successful fetch of page `p` yields (`[]` when the fetch
raises). -/
def pageJobs (env : Env) (p : Nat) : List JobPost :=
  match (find_jobs_in_page env p).1 with
  | Except.ok js => js
  | Except.error _ => []

/-- The jobs of the `n` consecutive pages starting at `page`, in page
order. -/
def jobsRange (env : Env) (page n : Nat) : List JobPost :=
  match n with
  | 0 => []
  | Nat.succ m => pageJobs env page ++ jobsRange env (page + 1) m

/-- Page `p` fetches successfully and yields at least one job, so the
pagination loop continues past it. -/
def pageOk (env : Env) (p : Nat) : Prop :=
  ∃ js, (find_jobs_in_page env p).1 = Except.ok js ∧ js ≠ []

/-- Spec-side reading of one detail field: the stripped text of the next
sibling of the given tag after the exactly-matching label element, `none`
when the label is absent. -/
def labelSiblingText (soup : List Elem) (label sibTag : String) : Option String :=
  (findLabelIdx soup label).bind (fun i => (findNextSiblingTag soup i sibTag).map getTextStrip)

/-- The one situation in which `_parse_job_details` raises: the label is
present but no following sibling has the required tag. -/
def labelPresentNoSibling (soup : List Elem) (label sibTag : String) : Prop :=
  ∃ i, findLabelIdx soup label = some i ∧ findNextSiblingTag soup i sibTag = none

deriving instance DecidableEq for Except

/-! ### Concrete fixtures used by witnesses and counterexamples -/

/-- A listing-page job container carrying every mandatory field. -/
def goodContainer : List Elem :=
  [⟨"p", "chakra-text css-134zrag", "Engineer", []⟩,
   ⟨"p", "chakra-text css-14pw5qv", "Acme", []⟩,
   ⟨"span", "css-111tzkx", "2026-01-01", []⟩,
   ⟨"a", "chakra-link chakra-button css-19vrdtv", "Apply", [("href", "/jobs/1")]⟩]

/-- A second complete container, linking to a different detail page. -/
def goodContainer2 : List Elem :=
  [⟨"p", "chakra-text css-134zrag", "Designer", []⟩,
   ⟨"p", "chakra-text css-14pw5qv", "Beta", []⟩,
   ⟨"a", "chakra-link chakra-button css-19vrdtv", "Apply", [("href", "/jobs/2")]⟩]

/-- A third complete container. -/
def goodContainer3 : List Elem :=
  [⟨"p", "chakra-text css-134zrag", "Writer", []⟩,
   ⟨"p", "chakra-text css-14pw5qv", "Gamma", []⟩,
   ⟨"a", "chakra-link chakra-button css-19vrdtv", "Apply", [("href", "/jobs/3")]⟩]

/-- A container with company, deadline and link but no title element. -/
def badContainer : List Elem :=
  [⟨"p", "chakra-text css-14pw5qv", "Acme", []⟩,
   ⟨"span", "css-111tzkx", "2026-01-01", []⟩,
   ⟨"a", "chakra-link chakra-button css-19vrdtv", "Apply", [("href", "/jobs/9")]⟩]

/-- A detail page carrying all four labelled fields. -/
def goodDetail : List Elem :=
  [⟨"p", "chakra-text css-i3b6lo", "Location:", []⟩, ⟨"span", "x", " Oslo ", []⟩,
   ⟨"p", "chakra-text css-i3b6lo", "Address:", []⟩, ⟨"p", "x", "Main St 1", []⟩,
   ⟨"p", "chakra-text css-i3b6lo", "Mode:", []⟩, ⟨"span", "x", "Remote", []⟩,
   ⟨"p", "chakra-text css-i3b6lo", "Description:", []⟩, ⟨"p", "x", "Great", []⟩]

/-- The job record `goodContainer` yields against `goodDetail`. -/
def job1 : JobPost :=
  { title := some "Engineer", company_name := some "Acme", deadline := some "2026-01-01",
    job_url := some "/jobs/1", location := some "Oslo", address := some "Main St 1",
    mode := some "Remote", description := some "Great" }

/-- The job record `goodContainer2` yields against `goodDetail`. -/
def job2 : JobPost :=
  { title := some "Designer", company_name := some "Beta", deadline := none,
    job_url := some "/jobs/2", location := some "Oslo", address := some "Main St 1",
    mode := some "Remote", description := some "Great" }

/-- The job record `goodContainer3` yields against `goodDetail`. -/
def job3 : JobPost :=
  { title := some "Writer", company_name := some "Gamma", deadline := none,
    job_url := some "/jobs/3", location := some "Oslo", address := some "Main St 1",
    mode := some "Remote", description := some "Great" }

/-- The resolved detail URLs of the three fixture containers. -/
def url1 : String := "https://www.standoutsearch.com/jobs/1"

/-- See `url1`. -/
def url2 : String := "https://www.standoutsearch.com/jobs/2"

/-- See `url1`. -/
def url3 : String := "https://www.standoutsearch.com/jobs/3"

/-- One job on page 1, every later page successfully empty. -/
def env1 : Env :=
  ⟨fun p => if p = 1 then some ⟨200, [goodContainer]⟩ else some ⟨200, []⟩,
   fun _ => goodDetail⟩

/-- Three jobs on page 1, every later page successfully empty. -/
def env3 : Env :=
  ⟨fun p => if p = 1 then some ⟨200, [goodContainer, goodContainer2, goodContainer3]⟩
            else some ⟨200, []⟩,
   fun _ => goodDetail⟩

/-- Every listing-page fetch raises an exception. -/
def envExc : Env :=
  ⟨fun _ => none, fun _ => goodDetail⟩

/-- Page 1 holds a complete container followed by one missing its title
element; every later page is successfully empty. -/
def envBad : Env :=
  ⟨fun p => if p = 1 then some ⟨200, [goodContainer, badContainer]⟩ else some ⟨200, []⟩,
   fun _ => goodDetail⟩

/-! ### Helper lemmas about the pagination loop -/

theorem scrapeLoop_stop (env : Env) (RW : Nat) (acc : List JobPost) (page : Nat)
    (h : RW ≤ acc.length) :
    scrapeLoop env RW acc page = (Except.ok acc, ⟨[], []⟩) := by
  rw [scrapeLoop.eq_def]; simp [h]

theorem scrapeLoop_err (env : Env) (RW : Nat) (acc : List JobPost) (page : Nat)
    (e : PyErr) (urls : List String) (h : ¬ RW ≤ acc.length)
    (hf : find_jobs_in_page env page = (Except.error e, urls)) :
    scrapeLoop env RW acc page = (Except.error e, ⟨[page], urls⟩) := by
  rw [scrapeLoop.eq_def]; simp [h, hf]

theorem scrapeLoop_empty (env : Env) (RW : Nat) (acc : List JobPost) (page : Nat)
    (urls : List String) (h : ¬ RW ≤ acc.length)
    (hf : find_jobs_in_page env page = (Except.ok [], urls)) :
    scrapeLoop env RW acc page = (Except.ok acc, ⟨[page], urls⟩) := by
  rw [scrapeLoop.eq_def]; simp [h, hf]

theorem scrapeLoop_cont (env : Env) (RW : Nat) (acc : List JobPost) (page : Nat)
    (j : JobPost) (js : List JobPost) (urls : List String) (h : ¬ RW ≤ acc.length)
    (hf : find_jobs_in_page env page = (Except.ok (j :: js), urls)) :
    scrapeLoop env RW acc page =
      ((scrapeLoop env RW (acc ++ j :: js) (page + 1)).1,
       ⟨page :: (scrapeLoop env RW (acc ++ j :: js) (page + 1)).2.listing,
        urls ++ (scrapeLoop env RW (acc ++ j :: js) (page + 1)).2.detail⟩) := by
  rw [scrapeLoop.eq_def]; simp [h, hf]

theorem scrape_eq (env : Env) (RW : Nat) :
    scrape env RW =
      ((scrapeLoop env RW [] 1).1.map (fun l => List.take RW l), (scrapeLoop env RW [] 1).2) :=
  rfl

theorem pageJobs_of_fst (env : Env) (p : Nat) (js : List JobPost)
    (h : (find_jobs_in_page env p).1 = Except.ok js) : pageJobs env p = js := by
  unfold pageJobs; rw [h]

theorem jobsRange_succ_eq (env : Env) (page m : Nat) :
    jobsRange env page (m + 1) = pageJobs env page ++ jobsRange env (page + 1) m :=
  rfl

theorem jobsRange_snoc (env : Env) :
    ∀ (n page : Nat), jobsRange env page (n + 1) = jobsRange env page n ++ pageJobs env (page + n)
  | 0, page => by simp [jobsRange]
  | Nat.succ m, page => by
    rw [jobsRange_succ_eq env page (m + 1), jobsRange_snoc env m (page + 1),
      jobsRange_succ_eq env page m, List.append_assoc,
      show page + 1 + m = page + (m + 1) by omega]

theorem scrapeLoop_advance (env : Env) (RW : Nat) :
    ∀ (n page : Nat) (acc : List JobPost),
      (∀ i, i < n → pageOk env (page + i)) →
      acc.length + (jobsRange env page n).length < RW →
      (scrapeLoop env RW acc page).1 =
        (scrapeLoop env RW (acc ++ jobsRange env page n) (page + n)).1
  | 0, page, acc => by
    intro _ _
    simp [jobsRange]
  | Nat.succ m, page, acc => by
    intro hp hq
    obtain ⟨js, hjs, hne⟩ := hp 0 (Nat.succ_pos m)
    rw [Nat.add_zero] at hjs
    match js, hne with
    | j :: js', _ =>
      have hfind : find_jobs_in_page env page =
          (Except.ok (j :: js'), (find_jobs_in_page env page).2) := by
        rw [← hjs]
      have hpj : pageJobs env page = j :: js' := pageJobs_of_fst env page _ hjs
      have hq' : (acc ++ j :: js').length + (jobsRange env (page + 1) m).length < RW := by
        rw [jobsRange_succ_eq, hpj] at hq
        simp [List.length_append] at hq ⊢
        omega
      have hlen : ¬ RW ≤ acc.length := by
        have hle : acc.length ≤ acc.length + (jobsRange env page (m + 1)).length :=
          Nat.le_add_right _ _
        omega
      rw [scrapeLoop_cont env RW acc page j js' _ hlen hfind]
      have hrec := scrapeLoop_advance env RW m (page + 1) (acc ++ j :: js')
        (fun i hi => by
          have := hp (i + 1) (by omega)
          rwa [show page + (i + 1) = page + 1 + i by omega] at this)
        hq'
      rw [jobsRange_succ_eq, hpj, show page + (m + 1) = page + 1 + m by omega,
        ← List.append_assoc]
      exact hrec

theorem except_bind_ok {ε α β : Type} (a : α) (f : α → Except ε β) :
    (Except.ok a >>= f) = f a := rfl

theorem except_bind_err {ε α β : Type} (e : ε) (f : α → Except ε β) :
    ((Except.error e : Except ε α) >>= f) = Except.error e := rfl

theorem find_jobs_200 (env : Env) (p : Nat) (res : ListingResponse)
    (hp : env.pages p = some res) (hst : res.status_code = 200) :
    find_jobs_in_page env p = processContainers env res.containers := by
  unfold find_jobs_in_page
  rw [hp]
  simp [hst]

theorem find_jobs_non200 (env : Env) (p : Nat) (res : ListingResponse)
    (hp : env.pages p = some res) (hst : res.status_code ≠ 200) :
    find_jobs_in_page env p = (Except.ok [], []) := by
  unfold find_jobs_in_page
  rw [hp]
  simp [hst]

theorem find_jobs_exc (env : Env) (p : Nat) (hp : env.pages p = none) :
    find_jobs_in_page env p = (Except.error PyErr.fetchError, []) := by
  unfold find_jobs_in_page
  rw [hp]

theorem process_job_ok_spec (env : Env) (c : List Elem) (j : JobPost)
    (h : (process_job env c).1 = Except.ok j) :
    (∃ s, j.title = some s) ∧ (∃ s, j.company_name = some s) ∧
      (process_job env c).2.length = 1 := by
  unfold process_job at h ⊢
  repeat' split at h
  all_goals try simp_all
  split at h
  all_goals simp_all
  subst h
  exact ⟨⟨_, rfl⟩, ⟨_, rfl⟩⟩

theorem processContainers_ok_get (env : Env) : ∀ (cs : List (List Elem)) (js : List JobPost),
    (processContainers env cs).1 = Except.ok js →
    js.length = cs.length ∧
      ∀ i (hi : i < js.length) (hi' : i < cs.length),
        (process_job env (cs.get ⟨i, hi'⟩)).1 = Except.ok (js.get ⟨i, hi⟩)
  | [], js => by
    intro h
    simp [processContainers] at h
    subst h
    exact ⟨rfl, fun i hi hi' => absurd hi (by simp)⟩
  | c :: cs, js => by
    intro h
    unfold processContainers at h
    cases hpc : process_job env c with
    | mk r urls =>
      rw [hpc] at h
      cases r with
      | error e => simp at h
      | ok j =>
        cases hrec : processContainers env cs with
        | mk r2 u2 =>
          rw [hrec] at h
          cases r2 with
          | error e => simp [Except.map] at h
          | ok js2 =>
            simp [Except.map] at h
            subst h
            have h1 : (process_job env c).1 = Except.ok j := by rw [hpc]
            obtain ⟨hlen, hget⟩ := processContainers_ok_get env cs js2 (by rw [hrec])
            refine ⟨by simp [hlen], ?_⟩
            intro i hi hi'
            match i with
            | 0 => simpa using h1
            | Nat.succ k =>
              simp only [List.get_cons_succ]
              exact hget k (by simp at hi; omega) (by simp at hi'; omega)

theorem processContainers_mem (env : Env) : ∀ (cs : List (List Elem)) (js : List JobPost),
    (processContainers env cs).1 = Except.ok js →
    ∀ x ∈ js, ∃ c, (process_job env c).1 = Except.ok x
  | [], js => by
    intro h x hx
    simp [processContainers] at h
    subst h
    simp at hx
  | c :: cs, js => by
    intro h x hx
    unfold processContainers at h
    cases hpc : process_job env c with
    | mk r urls =>
      rw [hpc] at h
      cases r with
      | error e => simp at h
      | ok j =>
        cases hrec : processContainers env cs with
        | mk r2 u2 =>
          rw [hrec] at h
          cases r2 with
          | error e => simp [Except.map] at h
          | ok js2 =>
            simp [Except.map] at h
            subst h
            rcases List.mem_cons.mp hx with hx | hx
            · exact ⟨c, by rw [hpc, hx]⟩
            · exact processContainers_mem env cs js2 (by rw [hrec]) x hx

theorem processContainers_err (env : Env) : ∀ (pre : List (List Elem)) (c : List Elem)
    (post : List (List Elem)) (e : PyErr),
    (∀ c' ∈ pre, ∃ j, (process_job env c').1 = Except.ok j) →
    (process_job env c).1 = Except.error e →
    (processContainers env (pre ++ c :: post)).1 = Except.error e
  | [], c, post, e => by
    intro _ he
    unfold processContainers
    cases hpc : process_job env c with
    | mk r urls =>
      rw [hpc] at he
      simp at he
      subst he
      simp [hpc]
  | p :: pre, c, post, e => by
    intro hpre he
    obtain ⟨j, hj⟩ := hpre p (List.mem_cons_self p pre)
    show (processContainers env (p :: (pre ++ c :: post))).1 = Except.error e
    unfold processContainers
    cases hpc : process_job env p with
    | mk r urls =>
      rw [hpc] at hj
      simp at hj
      subst hj
      cases hrec : processContainers env (pre ++ c :: post) with
      | mk r2 u2 =>
        have := processContainers_err env pre c post e
          (fun c' hc' => hpre c' (List.mem_cons_of_mem p hc')) he
        rw [hrec] at this
        simp at this
        subst this
        simp [Except.map]

theorem processContainers_trace_len (env : Env) : ∀ (cs : List (List Elem)),
    (∀ c ∈ cs, ∃ j, (process_job env c).1 = Except.ok j) →
    (processContainers env cs).2.length = cs.length
  | [] => by intro _; rfl
  | c :: cs => by
    intro hok
    obtain ⟨j, hj⟩ := hok c (List.mem_cons_self c cs)
    have htr := (process_job_ok_spec env c j hj).2.2
    unfold processContainers
    cases hpc : process_job env c with
    | mk r urls =>
      rw [hpc] at hj htr
      simp at hj
      subst hj
      cases hrec : processContainers env cs with
      | mk r2 u2 =>
        have ih := processContainers_trace_len env cs
          (fun c' hc' => hok c' (List.mem_cons_of_mem c hc'))
        rw [hrec] at ih
        simp at htr ih ⊢
        omega

theorem find_jobs_mem (env : Env) (p : Nat) (js : List JobPost)
    (h : (find_jobs_in_page env p).1 = Except.ok js) :
    ∀ x ∈ js, ∃ c, (process_job env c).1 = Except.ok x := by
  unfold find_jobs_in_page at h
  cases hp : env.pages p with
  | none => rw [hp] at h; simp at h
  | some res =>
    rw [hp] at h
    by_cases hst : res.status_code = 200
    · simp [hst] at h
      exact processContainers_mem env res.containers js h
    · simp [hst] at h
      subst h
      intro x hx
      simp at hx

theorem scrapeLoop_preserves (env : Env) (RW : Nat) (P : JobPost → Prop)
    (hP : ∀ p js, (find_jobs_in_page env p).1 = Except.ok js → ∀ x ∈ js, P x) :
    ∀ (acc : List JobPost) (page : Nat), (∀ x ∈ acc, P x) →
      ∀ l, (scrapeLoop env RW acc page).1 = Except.ok l → ∀ x ∈ l, P x := by
  intro acc page
  induction acc, page using scrapeLoop.induct env RW with
  | case1 acc page h =>
    intro hacc l hl x hx
    rw [scrapeLoop_stop env RW acc page h] at hl
    simp at hl
    subst hl
    exact hacc x hx
  | case2 acc page h e urls hf =>
    intro hacc l hl
    rw [scrapeLoop_err env RW acc page e urls h hf] at hl
    simp at hl
  | case3 acc page h urls hf =>
    intro hacc l hl x hx
    rw [scrapeLoop_empty env RW acc page urls h hf] at hl
    simp at hl
    subst hl
    exact hacc x hx
  | case4 acc page h j js urls hf r t hrt ih =>
    intro hacc l hl x hx
    rw [scrapeLoop_cont env RW acc page j js urls h hf] at hl
    simp only [] at hl
    refine ih ?_ l hl x hx
    intro y hy
    rcases List.mem_append.mp hy with hy | hy
    · exact hacc y hy
    · exact hP page (j :: js) (by rw [hf]) y hy

theorem scrapeLoop_ok_shape (env : Env) (RW : Nat) :
    ∀ (acc : List JobPost) (page : Nat), ∀ l,
      (scrapeLoop env RW acc page).1 = Except.ok l → ∃ n, l = acc ++ jobsRange env page n := by
  intro acc page
  induction acc, page using scrapeLoop.induct env RW with
  | case1 acc page h =>
    intro l hl
    rw [scrapeLoop_stop env RW acc page h] at hl
    simp at hl
    subst hl
    exact ⟨0, by simp [jobsRange]⟩
  | case2 acc page h e urls hf =>
    intro l hl
    rw [scrapeLoop_err env RW acc page e urls h hf] at hl
    simp at hl
  | case3 acc page h urls hf =>
    intro l hl
    rw [scrapeLoop_empty env RW acc page urls h hf] at hl
    simp at hl
    subst hl
    exact ⟨0, by simp [jobsRange]⟩
  | case4 acc page h j js urls hf r t hrt ih =>
    intro l hl
    rw [scrapeLoop_cont env RW acc page j js urls h hf] at hl
    simp only [] at hl
    obtain ⟨n, hn⟩ := ih l hl
    refine ⟨n + 1, ?_⟩
    rw [jobsRange_succ_eq, pageJobs_of_fst env page (j :: js) (by rw [hf]),
      ← List.append_assoc]
    exact hn

theorem scrapeLoop_listing_bound (env : Env) (RW : Nat) :
    ∀ (acc : List JobPost) (page : Nat),
      (scrapeLoop env RW acc page).2.listing.length ≤ RW - acc.length := by
  intro acc page
  induction acc, page using scrapeLoop.induct env RW with
  | case1 acc page h =>
    rw [scrapeLoop_stop env RW acc page h]
    simp
  | case2 acc page h e urls hf =>
    rw [scrapeLoop_err env RW acc page e urls h hf]
    simp
    omega
  | case3 acc page h urls hf =>
    rw [scrapeLoop_empty env RW acc page urls h hf]
    simp
    omega
  | case4 acc page h j js urls hf r t hrt ih =>
    rw [scrapeLoop_cont env RW acc page j js urls h hf]
    rw [hrt] at ih ⊢
    simp [List.length_append] at ih ⊢
    omega

theorem scrapeLoop_detail_eq (env : Env) (RW : Nat) :
    ∀ (acc : List JobPost) (page : Nat),
      (scrapeLoop env RW acc page).2.detail =
        ((scrapeLoop env RW acc page).2.listing).flatMap (fun p => (find_jobs_in_page env p).2) := by
  intro acc page
  induction acc, page using scrapeLoop.induct env RW with
  | case1 acc page h =>
    rw [scrapeLoop_stop env RW acc page h]
    simp
  | case2 acc page h e urls hf =>
    rw [scrapeLoop_err env RW acc page e urls h hf]
    simp [hf]
  | case3 acc page h urls hf =>
    rw [scrapeLoop_empty env RW acc page urls h hf]
    simp [hf]
  | case4 acc page h j js urls hf r t hrt ih =>
    rw [scrapeLoop_cont env RW acc page j js urls h hf]
    rw [hrt] at ih ⊢
    simp [List.flatMap_cons, hf]
    exact ih

theorem scrapeLoop_listing_quota (env : Env) (RW : Nat) :
    ∀ (acc : List JobPost) (page : Nat), 1 ≤ page → acc = jobsRange env 1 (page - 1) →
      ∀ p ∈ (scrapeLoop env RW acc page).2.listing, (jobsRange env 1 (p - 1)).length < RW := by
  intro acc page
  induction acc, page using scrapeLoop.induct env RW with
  | case1 acc page h =>
    intro hpage hinv p hp
    rw [scrapeLoop_stop env RW acc page h] at hp
    simp at hp
  | case2 acc page h e urls hf =>
    intro hpage hinv p hp
    rw [scrapeLoop_err env RW acc page e urls h hf] at hp
    simp at hp
    subst hp
    rw [← hinv]
    omega
  | case3 acc page h urls hf =>
    intro hpage hinv p hp
    rw [scrapeLoop_empty env RW acc page urls h hf] at hp
    simp at hp
    subst hp
    rw [← hinv]
    omega
  | case4 acc page h j js urls hf r t hrt ih =>
    intro hpage hinv p hp
    rw [scrapeLoop_cont env RW acc page j js urls h hf] at hp
    simp only [List.mem_cons] at hp
    rcases hp with hp | hp
    · subst hp
      rw [← hinv]
      omega
    · refine ih (by omega) ?_ p ?_
      · rw [hinv, show page + 1 - 1 = (page - 1) + 1 by omega, jobsRange_snoc,
          show 1 + (page - 1) = page by omega,
          pageJobs_of_fst env page (j :: js) (by rw [hf])]
      · exact hp

theorem detailField_ok (soup : List Elem) (label sibTag : String) (v : Option String)
    (h : detailField soup label sibTag = Except.ok v) :
    v = labelSiblingText soup label sibTag := by
  unfold detailField at h
  split at h
  next hL =>
    simp at h
    subst h
    simp [labelSiblingText, hL]
  next i hL =>
    split at h
    next hS => simp at h
    next e hS =>
      simp at h
      subst h
      simp [labelSiblingText, hL, hS]

theorem detailField_err (soup : List Elem) (label sibTag : String) (e : PyErr)
    (h : detailField soup label sibTag = Except.error e) :
    labelPresentNoSibling soup label sibTag := by
  unfold detailField at h
  split at h
  next hL => simp at h
  next i hL =>
    split at h
    next hS => exact ⟨i, hL, hS⟩
    next el hS => simp at h

/-- C4: on every detail-page markup, each of the four detail fields of a
successfully parsed Job Detail is exactly the stripped text of the next
sibling of the required tag (a `span` for location/mode, a `p` for
address/description) after the exactly-matching label element when the
label is present, and `none` when the label is absent; parsing fails only
when some label is present without a following sibling of the required
tag, so absence of a label is never an error. -/
theorem parse_job_details_label_adjacent (soup : List Elem) :
    (∀ d, parse_job_details soup = Except.ok d →
      d.location = labelSiblingText soup "Location:" "span" ∧
      d.address = labelSiblingText soup "Address:" "p" ∧
      d.mode = labelSiblingText soup "Mode:" "span" ∧
      d.description = labelSiblingText soup "Description:" "p") ∧
    (∀ e, parse_job_details soup = Except.error e →
      labelPresentNoSibling soup "Location:" "span" ∨
      labelPresentNoSibling soup "Address:" "p" ∨
      labelPresentNoSibling soup "Mode:" "span" ∨
      labelPresentNoSibling soup "Description:" "p") := by
  constructor
  · intro d hd
    unfold parse_job_details at hd
    cases h1 : detailField soup "Location:" "span" with
    | error e => rw [h1, except_bind_err] at hd; simp at hd
    | ok v1 =>
      rw [h1, except_bind_ok] at hd
      cases h2 : detailField soup "Address:" "p" with
      | error e => rw [h2, except_bind_err] at hd; simp at hd
      | ok v2 =>
        rw [h2, except_bind_ok] at hd
        cases h3 : detailField soup "Mode:" "span" with
        | error e => rw [h3, except_bind_err] at hd; simp at hd
        | ok v3 =>
          rw [h3, except_bind_ok] at hd
          cases h4 : detailField soup "Description:" "p" with
          | error e => rw [h4, except_bind_err] at hd; simp at hd
          | ok v4 =>
            rw [h4, except_bind_ok] at hd
            simp at hd
            subst hd
            exact ⟨detailField_ok _ _ _ _ h1, detailField_ok _ _ _ _ h2,
              detailField_ok _ _ _ _ h3, detailField_ok _ _ _ _ h4⟩
  · intro e he
    unfold parse_job_details at he
    cases h1 : detailField soup "Location:" "span" with
    | error e1 => exact Or.inl (detailField_err _ _ _ _ h1)
    | ok v1 =>
      rw [h1, except_bind_ok] at he
      cases h2 : detailField soup "Address:" "p" with
      | error e2 => exact Or.inr (Or.inl (detailField_err _ _ _ _ h2))
      | ok v2 =>
        rw [h2, except_bind_ok] at he
        cases h3 : detailField soup "Mode:" "span" with
        | error e3 => exact Or.inr (Or.inr (Or.inl (detailField_err _ _ _ _ h3)))
        | ok v3 =>
          rw [h3, except_bind_ok] at he
          cases h4 : detailField soup "Description:" "p" with
          | error e4 => exact Or.inr (Or.inr (Or.inr (detailField_err _ _ _ _ h4)))
          | ok v4 => rw [h4, except_bind_ok] at he; simp at he

theorem process_job_err_of_missing (env : Env) (c : List Elem)
    (hmiss : findTagClass c "p" "chakra-text css-134zrag" = none ∨
      findTagClass c "p" "chakra-text css-14pw5qv" = none ∨
      findTagClass c "a" "chakra-link chakra-button css-19vrdtv" = none ∨
      (∃ aE, findTagClass c "a" "chakra-link chakra-button css-19vrdtv" = some aE ∧
        lookupAttr aE "href" = none)) :
    ∃ e, (process_job env c).1 = Except.error e := by
  unfold process_job
  rcases hmiss with h | h | h | ⟨aE, haE, h⟩
  · rw [h]
    exact ⟨_, rfl⟩
  · cases h1 : findTagClass c "p" "chakra-text css-134zrag" with
    | none => exact ⟨_, rfl⟩
    | some tE =>
      rw [h]
      exact ⟨_, rfl⟩
  · cases h1 : findTagClass c "p" "chakra-text css-134zrag" with
    | none => exact ⟨_, rfl⟩
    | some tE =>
      cases h2 : findTagClass c "p" "chakra-text css-14pw5qv" with
      | none => exact ⟨_, rfl⟩
      | some cE =>
        rw [h]
        exact ⟨_, rfl⟩
  · cases h1 : findTagClass c "p" "chakra-text css-134zrag" with
    | none => exact ⟨_, rfl⟩
    | some tE =>
      cases h2 : findTagClass c "p" "chakra-text css-14pw5qv" with
      | none => exact ⟨_, rfl⟩
      | some cE =>
        simp only [haE, h]
        exact ⟨_, rfl⟩

theorem scrape_env1_eval :
    scrape env1 10 = (Except.ok [job1], ⟨[1, 2], [url1]⟩) := by
  have h1 : find_jobs_in_page env1 1 = (Except.ok [job1], [url1]) := by decide
  have h2 : find_jobs_in_page env1 2 = (Except.ok [], []) := by decide
  have e1 := scrapeLoop_cont env1 10 [] 1 job1 [] [url1] (by decide) h1
  have e2 := scrapeLoop_empty env1 10 [job1] 2 [] (by decide) h2
  simp only [List.nil_append] at e1
  rw [scrape_eq, e1, e2]
  decide

theorem scrapeLoop_env3_eval :
    scrapeLoop env3 1 [] 1 = (Except.ok [job1, job2, job3], ⟨[1], [url1, url2, url3]⟩) := by
  have h1 : find_jobs_in_page env3 1 = (Except.ok [job1, job2, job3], [url1, url2, url3]) := by
    decide
  have e1 := scrapeLoop_cont env3 1 [] 1 job1 [job2, job3] [url1, url2, url3] (by decide) h1
  have e2 := scrapeLoop_stop env3 1 [job1, job2, job3] 2 (by decide)
  simp only [List.nil_append] at e1
  rw [e1, e2]
  decide

theorem scrape_env3_eval :
    scrape env3 1 = (Except.ok [job1], ⟨[1], [url1, url2, url3]⟩) := by
  rw [scrape_eq, scrapeLoop_env3_eval]
  decide

theorem scrape_envExc_eval :
    scrape envExc 5 = (Except.error PyErr.fetchError, ⟨[1], []⟩) := by
  have h1 : find_jobs_in_page envExc 1 = (Except.error PyErr.fetchError, []) := by decide
  have e1 := scrapeLoop_err envExc 5 [] 1 PyErr.fetchError [] (by decide) h1
  rw [scrape_eq, e1]
  decide

theorem scrape_envBad_eval :
    scrape envBad 10 = (Except.error PyErr.attrError, ⟨[1], [url1]⟩) := by
  have h1 : find_jobs_in_page envBad 1 = (Except.error PyErr.attrError, [url1]) := by decide
  have e1 := scrapeLoop_err envBad 10 [] 1 PyErr.attrError [url1] (by decide) h1
  rw [scrape_eq, e1]
  decide

/-- C1: for every quota `Q ≥ 0` supplied in the search criteria
(`results_wanted`), the job sequence returned by `scrape` has length at
most `Q`. -/
theorem scrape_length_le_quota (env : Env) (Q : Nat) (l : List JobPost)
    (h : (scrape env Q).1 = Except.ok l) : l.length ≤ Q := by
  rw [scrape_eq] at h
  cases hr : (scrapeLoop env Q [] 1).1 with
  | error e => rw [hr] at h; simp [Except.map] at h
  | ok l0 =>
    rw [hr] at h
    simp [Except.map] at h
    subst h
    rw [List.length_take]
    exact min_le_left _ _

/-- Witness for C1 at a concrete environment and quota. -/
theorem scrape_length_le_quota_witness : ([job1] : List JobPost).length ≤ 10 :=
  scrape_length_le_quota env1 10 [job1] (by rw [scrape_env1_eval])

/-- Counterexample to C2 as stated: in an environment whose page-1 fetch
raises an exception, `scrape` does not return the records collected
before page 1 (the empty list) — the exception propagates instead. -/
theorem scrape_fetch_exception_propagates :
    (scrape envExc 5).1 = Except.error PyErr.fetchError ∧
      (scrape envExc 5).1 ≠ Except.ok [] := by
  rw [scrape_envExc_eval]
  exact ⟨rfl, by simp⟩

/-- C2 (amended): if the listing-page fetch for page `p` returns a
non-success HTTP status or yields zero job containers, pagination stops
at `p` and `scrape` returns exactly the records collected from the pages
before `p`; a fetch exception (or any other exception raised while
processing page `p`) instead propagates out of `scrape`, so nothing is
returned.  In both cases no job from page `p` or any later page is
included. -/
theorem scrape_pagination_stop (env : Env) (Q p : Nat) (hp : 1 ≤ p)
    (hprev : ∀ i, i < p - 1 → pageOk env (1 + i))
    (hq : (jobsRange env 1 (p - 1)).length < Q) :
    ((find_jobs_in_page env p).1 = Except.ok [] →
      (scrape env Q).1 = Except.ok (jobsRange env 1 (p - 1))) ∧
    (∀ e, (find_jobs_in_page env p).1 = Except.error e →
      (scrape env Q).1 = Except.error e) := by
  have hadv := scrapeLoop_advance env Q (p - 1) 1 [] (fun i hi => hprev i hi)
    (by simpa using hq)
  rw [show 1 + (p - 1) = p by omega] at hadv
  simp only [List.nil_append] at hadv
  have hlt : ¬ Q ≤ (jobsRange env 1 (p - 1)).length := by omega
  constructor
  · intro hstop
    have hfind : find_jobs_in_page env p = (Except.ok [], (find_jobs_in_page env p).2) := by
      rw [← hstop]
    have hloop := scrapeLoop_empty env Q (jobsRange env 1 (p - 1)) p
      ((find_jobs_in_page env p).2) hlt hfind
    rw [scrape_eq, hadv, hloop]
    have htake := List.take_of_length_le (le_of_lt hq)
    simp [Except.map, htake]
  · intro e herr
    have hfind : find_jobs_in_page env p = (Except.error e, (find_jobs_in_page env p).2) := by
      rw [← herr]
    have hloop := scrapeLoop_err env Q (jobsRange env 1 (p - 1)) p e
      ((find_jobs_in_page env p).2) hlt hfind
    rw [scrape_eq, hadv, hloop]
    simp [Except.map]

/-- Witness for C2 (amended): page 2 of `env1` is successfully empty, so
the scrape returns exactly the page-1 records. -/
theorem scrape_pagination_stop_witness :
    (scrape env1 10).1 = Except.ok (jobsRange env1 1 1) :=
  (scrape_pagination_stop env1 10 2 (by decide)
    (fun i hi => by
      have hi0 : i = 0 := by omega
      subst hi0
      exact ⟨[job1], by decide, by decide⟩)
    (by decide)).1 (by decide)

/-- C3: the quota check happens before every listing-page fetch: every
page number in the listing trace was fetched while the records collected
from the earlier pages still numbered fewer than `Q`; in particular with
`Q = 0` no listing page is fetched at all. -/
theorem scrape_quota_checked_before_fetch (env : Env) (Q : Nat) :
    (∀ p ∈ (scrape env Q).2.listing, (jobsRange env 1 (p - 1)).length < Q) ∧
    (scrape env 0).2.listing = [] := by
  constructor
  · intro p hp
    rw [scrape_eq] at hp
    exact scrapeLoop_listing_quota env Q [] 1 (le_refl 1) (by simp [jobsRange]) p hp
  · have hb := scrapeLoop_listing_bound env 0 [] 1
    show (scrapeLoop env 0 [] 1).2.listing = []
    simp only [List.length_nil, Nat.zero_sub] at hb
    exact List.length_eq_zero.mp (by omega)

/-- Witness for C3: page 1 is in the trace of a run against `env1`, and
zero records had been collected when it was fetched. -/
theorem scrape_quota_checked_before_fetch_witness :
    (jobsRange env1 1 0).length < 10 :=
  (scrape_quota_checked_before_fetch env1 10).1 1 (by rw [scrape_env1_eval]; decide)

/-- Witness for C4: a detail page carrying all four labels parses
successfully, and its location field is the stripped sibling text. -/
theorem parse_job_details_label_adjacent_witness :
    ({ title := none, company_name := none, deadline := none, job_url := none,
        location := some "Oslo", address := some "Main St 1",
        mode := some "Remote", description := some "Great" } : JobPost).location
      = labelSiblingText goodDetail "Location:" "span" ∧
    labelSiblingText goodDetail "Location:" "span" = some "Oslo" :=
  ⟨((parse_job_details_label_adjacent goodDetail).1 _ (by decide)).1, by decide⟩

/-- Counterexample to C5 as stated: page 1 of `envBad` holds a complete
container followed by one missing its title element; the claim predicts
the bad item is skipped and the scrape continues (returning the good
record), but the code raises `AttributeError`, aborting the whole
scrape. -/
theorem process_missing_title_aborts_scrape :
    (scrape envBad 10).1 = Except.error PyErr.attrError ∧
      (scrape envBad 10).1 ≠ Except.ok [job1] := by
  rw [scrape_envBad_eval]
  exact ⟨rfl, by simp⟩

/-- C5 (amended): a job container missing a mandatory field (the title
element, the company element, the detail-link element, or the link's
`href` attribute) makes `_process_job` raise an exception which
propagates uncaught: the page's processing errors out and, when that page
is reached, the entire scrape errors out instead of skipping the item and
continuing. -/
theorem mandatory_field_miss_aborts (env : Env) (Q p : Nat) (res : ListingResponse)
    (pre : List (List Elem)) (c : List Elem) (post : List (List Elem))
    (hp : 1 ≤ p) (hres : env.pages p = some res) (hst : res.status_code = 200)
    (hcont : res.containers = pre ++ c :: post)
    (hpre : ∀ c' ∈ pre, ∃ j, (process_job env c').1 = Except.ok j)
    (hmiss : findTagClass c "p" "chakra-text css-134zrag" = none ∨
      findTagClass c "p" "chakra-text css-14pw5qv" = none ∨
      findTagClass c "a" "chakra-link chakra-button css-19vrdtv" = none ∨
      (∃ aE, findTagClass c "a" "chakra-link chakra-button css-19vrdtv" = some aE ∧
        lookupAttr aE "href" = none))
    (hprev : ∀ i, i < p - 1 → pageOk env (1 + i))
    (hq : (jobsRange env 1 (p - 1)).length < Q) :
    ∃ e, (process_job env c).1 = Except.error e ∧
      (find_jobs_in_page env p).1 = Except.error e ∧
      (scrape env Q).1 = Except.error e := by
  obtain ⟨e, he⟩ := process_job_err_of_missing env c hmiss
  have hfind : (find_jobs_in_page env p).1 = Except.error e := by
    rw [find_jobs_200 env p res hres hst, hcont]
    exact processContainers_err env pre c post e hpre he
  have hadv := scrapeLoop_advance env Q (p - 1) 1 [] (fun i hi => hprev i hi)
    (by simpa using hq)
  rw [show 1 + (p - 1) = p by omega] at hadv
  simp only [List.nil_append] at hadv
  have hlt : ¬ Q ≤ (jobsRange env 1 (p - 1)).length := by omega
  have hfindPair : find_jobs_in_page env p = (Except.error e, (find_jobs_in_page env p).2) := by
    rw [← hfind]
  have hloop := scrapeLoop_err env Q (jobsRange env 1 (p - 1)) p e
    ((find_jobs_in_page env p).2) hlt hfindPair
  refine ⟨e, he, hfind, ?_⟩
  rw [scrape_eq, hadv, hloop]
  simp [Except.map]

/-- Witness for C5 (amended), instantiated at `envBad`: the missing title
produces an `AttributeError` that aborts the scrape. -/
theorem mandatory_field_miss_aborts_witness :
    (scrape envBad 10).1 = Except.error PyErr.attrError := by
  obtain ⟨e, he, hf, hs⟩ := mandatory_field_miss_aborts envBad 10 1
    ⟨200, [goodContainer, badContainer]⟩ [goodContainer] badContainer []
    (by decide) (by decide) (by decide) (by decide)
    (fun c' hc' => by
      have hc1 : c' = goodContainer := by
        simpa using hc'
      subst hc1
      exact ⟨job1, by decide⟩)
    (Or.inl (by decide))
    (fun i hi => absurd hi (by omega))
    (by decide)
  have hv : (process_job envBad badContainer).1 = Except.error PyErr.attrError := by decide
  rw [he] at hv
  simp only [Except.error.injEq] at hv
  rw [← hv]
  exact hs

/-- C6: every record in a successfully returned result collection has a
non-null title and a non-null company name. -/
theorem scrape_records_have_title_company (env : Env) (Q : Nat) (l : List JobPost)
    (h : (scrape env Q).1 = Except.ok l) :
    ∀ j ∈ l, j.title ≠ none ∧ j.company_name ≠ none := by
  rw [scrape_eq] at h
  cases hr : (scrapeLoop env Q [] 1).1 with
  | error e => rw [hr] at h; simp [Except.map] at h
  | ok l0 =>
    rw [hr] at h
    simp [Except.map] at h
    subst h
    intro j hj
    have hj0 : j ∈ l0 := List.mem_of_mem_take hj
    refine scrapeLoop_preserves env Q (fun x => x.title ≠ none ∧ x.company_name ≠ none)
      ?_ [] 1 (by simp) l0 hr j hj0
    intro p js hjs x hx
    obtain ⟨c, hc⟩ := find_jobs_mem env p js hjs x hx
    obtain ⟨⟨s1, hs1⟩, ⟨s2, hs2⟩, _⟩ := process_job_ok_spec env c x hc
    exact ⟨by simp [hs1], by simp [hs2]⟩

/-- Witness for C6 at a concrete run. -/
theorem scrape_records_have_title_company_witness :
    job1.title ≠ none ∧ job1.company_name ≠ none :=
  scrape_records_have_title_company env1 10 [job1] (by rw [scrape_env1_eval])
    job1 (by simp)

/-- C7: the returned sequence is ordered by page first and by container
order within a page: a successful result is a quota-prefix of the
concatenation of the per-page job lists in page order, and on every
successfully processed listing page the i-th job comes from the i-th
container of the page markup. -/
theorem scrape_result_page_container_order (env : Env) (Q : Nat) (l : List JobPost)
    (h : (scrape env Q).1 = Except.ok l) :
    (∃ n, l = (jobsRange env 1 n).take Q) ∧
    (∀ p res js, env.pages p = some res → res.status_code = 200 →
      (find_jobs_in_page env p).1 = Except.ok js →
      js.length = res.containers.length ∧
        ∀ i (hi : i < js.length) (hi' : i < res.containers.length),
          (process_job env (res.containers.get ⟨i, hi'⟩)).1 = Except.ok (js.get ⟨i, hi⟩)) := by
  constructor
  · rw [scrape_eq] at h
    cases hr : (scrapeLoop env Q [] 1).1 with
    | error e => rw [hr] at h; simp [Except.map] at h
    | ok l0 =>
      rw [hr] at h
      simp [Except.map] at h
      subst h
      obtain ⟨n, hn⟩ := scrapeLoop_ok_shape env Q [] 1 l0 hr
      exact ⟨n, by rw [hn]; simp⟩
  · intro p res js hres hst hjs
    rw [find_jobs_200 env p res hres hst] at hjs
    exact processContainers_ok_get env res.containers js hjs

/-- Witness for C7: the three-container page of `env3` yields its jobs in
container order and the quota-1 result is the first container's record. -/
theorem scrape_result_page_container_order_witness :
    ∃ n, ([job1] : List JobPost) = (jobsRange env3 1 n).take 1 :=
  (scrape_result_page_container_order env3 1 [job1] (by rw [scrape_env3_eval])).1

/-- C8: the detail-page GET of `_process_job` is issued against the
extracted link resolved by `fetch_html` (modelled from the spec): a
site-relative URL is resolved against the base host, an absolute URL is
used as-is. -/
theorem detail_fetch_resolves_relative_url (env : Env) (c : List Elem)
    (tE cE aE : Elem) (href : String)
    (h1 : findTagClass c "p" "chakra-text css-134zrag" = some tE)
    (h2 : findTagClass c "p" "chakra-text css-14pw5qv" = some cE)
    (h3 : findTagClass c "a" "chakra-link chakra-button css-19vrdtv" = some aE)
    (h4 : lookupAttr aE "href" = some href) :
    (process_job env c).2 = [resolveUrl base_url href] ∧
    (isAbsoluteUrl href = true → resolveUrl base_url href = href) ∧
    (isAbsoluteUrl href = false → resolveUrl base_url href = base_url ++ href) := by
  refine ⟨?_, fun ha => by simp [resolveUrl, ha], fun ha => by simp [resolveUrl, ha]⟩
  unfold process_job
  simp only [h1, h2, h3, h4]
  cases h5 : parse_job_details (env.detail (resolveUrl base_url href)) <;> simp

/-- Witness for C8: the relative link of `goodContainer` is resolved
against the base host. -/
theorem detail_fetch_resolves_relative_url_witness :
    (process_job env1 goodContainer).2 = [resolveUrl base_url "/jobs/1"] ∧
    (isAbsoluteUrl "/jobs/1" = true → resolveUrl base_url "/jobs/1" = "/jobs/1") ∧
    (isAbsoluteUrl "/jobs/1" = false →
      resolveUrl base_url "/jobs/1" = base_url ++ "/jobs/1") :=
  detail_fetch_resolves_relative_url env1 goodContainer
    ⟨"p", "chakra-text css-134zrag", "Engineer", []⟩
    ⟨"p", "chakra-text css-14pw5qv", "Acme", []⟩
    ⟨"a", "chakra-link chakra-button css-19vrdtv", "Apply", [("href", "/jobs/1")]⟩
    "/jobs/1" (by decide) (by decide) (by decide) (by decide)

/-- C9: `scrape` terminates (it is a total function, by the same measure
the loop decreases) and performs at most `Q + 1` listing-page fetches. -/
theorem scrape_terminates_fetch_bound (env : Env) (Q : Nat) :
    (scrape env Q).2.listing.length ≤ Q + 1 := by
  have hb := scrapeLoop_listing_bound env Q [] 1
  show (scrapeLoop env Q [] 1).2.listing.length ≤ Q + 1
  simp only [List.length_nil, Nat.sub_zero] at hb
  omega

/-- C10: detail fetching happens during page extraction, before quota
truncation: the detail-fetch trace is exactly the per-page detail fetches
of every fetched listing page; on a fully successful page one detail
fetch happens per container; and the quota cut is applied only to the
final accumulated list. -/
theorem detail_fetch_before_truncation (env : Env) (Q : Nat) :
    ((scrape env Q).2.detail =
      ((scrape env Q).2.listing).flatMap (fun p => (find_jobs_in_page env p).2)) ∧
    (∀ p res, env.pages p = some res → res.status_code = 200 →
      (∀ c ∈ res.containers, ∃ j, (process_job env c).1 = Except.ok j) →
      (find_jobs_in_page env p).2.length = res.containers.length) ∧
    (∀ l, (scrapeLoop env Q [] 1).1 = Except.ok l →
      (scrape env Q).1 = Except.ok (l.take Q)) := by
  refine ⟨?_, ?_, ?_⟩
  · show (scrapeLoop env Q [] 1).2.detail =
      ((scrapeLoop env Q [] 1).2.listing).flatMap (fun p => (find_jobs_in_page env p).2)
    exact scrapeLoop_detail_eq env Q [] 1
  · intro p res hres hst hok
    rw [find_jobs_200 env p res hres hst]
    exact processContainers_trace_len env res.containers hok
  · intro l hl
    rw [scrape_eq, hl]
    simp [Except.map]

/-- Witness for C10: with quota 1 and three containers on page 1, three
detail fetches happen but only the first record is returned. -/
theorem detail_fetch_before_truncation_witness :
    (find_jobs_in_page env3 1).2.length = 3 ∧
      (scrape env3 1).1 = Except.ok ([job1, job2, job3].take 1) :=
  ⟨by
    have := (detail_fetch_before_truncation env3 1).2.1 1
      ⟨200, [goodContainer, goodContainer2, goodContainer3]⟩ (by decide) (by decide)
      (fun c hc => by
        simp only [List.mem_cons, List.not_mem_nil, or_false] at hc
        rcases hc with rfl | rfl | rfl
        · exact ⟨job1, by decide⟩
        · exact ⟨job2, by decide⟩
        · exact ⟨job3, by decide⟩)
    simpa using this,
   (detail_fetch_before_truncation env3 1).2.2 [job1, job2, job3]
     (by rw [scrapeLoop_env3_eval])⟩
